import Mathlib

/-!
Shallow embedding of the Stacked Borrows diagnostics module
(`src/stacked_borrows/diagnostics.rs`) and the TLS key allocator
(`src/shims/tls.rs`) of the miri fork, together with theorems settling the
frozen specification claims.

Conventions of the embedding:
* Rust panics (`unwrap`, `expect`, `unreachable!`, `assert!`, `panic!`) are
  modelled by an `Option` result, `none` meaning the call panics.
* Machine integers (`u64` offsets, `u128` TLS keys) are modelled as `Nat`;
  the only arithmetic performed is addition and comparison, and the counters
  involved cannot reach the wrap-around point within any run that the claims
  quantify over, so no modular reduction is needed.
* Rust `format!` strings are modelled by injective constructors of inductive
  message types, so that two distinct messages stay distinct.
-/

/-- Rust `SbTag`: opaque monotonically allocated borrow tag (a `u64` in the source). -/
abbrev SbTag := Nat

/-- A source span; the diagnostics code only threads spans through, so an
opaque identifier suffices. -/
abbrev Span := Nat

/-- Rust `AllocRange` from `rustc_middle::mir::interpret`: a `start` offset and a
`size`, covering bytes `[start, start + size)`. -/
structure AllocRange where
  start : Nat
  size : Nat
  deriving DecidableEq, Repr

/-- Rust `alloc_range(start, size)` from `rustc_middle`: the second argument is a
SIZE, not an end offset. -/
def alloc_range (start size : Nat) : AllocRange := ⟨start, size⟩

/-- Rust `AllocRange::end()` = `start + size`. -/
def AllocRange.endOffset (r : AllocRange) : Nat := r.start + r.size

/-- Rust `Permission` of a borrow-stack item. -/
inductive Permission where
  | Unique
  | SharedReadWrite
  | SharedReadOnly
  | Disabled
  deriving DecidableEq, Repr

/-- Modelled from the spec: `Item: (tag, permission, protected: bool)` — one
entry in a Borrow Stack.  (The concrete `Item` type lives in
`stacked_borrows/mod.rs`, which is not part of the sources; only its `tag()`
and `perm()` accessors are used by the diagnostics code.) -/
structure Item where
  tag : SbTag
  perm : Permission
  protected_ : Bool
  deriving DecidableEq, Repr

/-- Modelled from the spec: a Borrow `Stack` is an ordered sequence of
`Item`s; the diagnostics code only uses `stack.len()` and `stack.get(i)`. -/
abbrev Stack := List Item

/-- Rust `ProvenanceExtra`: a concrete tag or wildcard provenance. -/
inductive ProvenanceExtra where
  | Concrete (tag : SbTag)
  | Wildcard
  deriving DecidableEq, Repr

/-- Rust `AccessKind` (read or write). -/
inductive AccessKind where
  | Read
  | Write
  deriving DecidableEq, Repr

/-- Rust `RetagCause` — why a retag operation happened. -/
inductive RetagCause where
  | Normal
  | FnReturn
  | FnEntry
  | TwoPhase
  deriving DecidableEq, Repr

/-- Rust `RetagOp`: the payload of a pending retag operation. -/
structure RetagOp where
  cause : RetagCause
  new_tag : SbTag
  orig_tag : ProvenanceExtra
  range : AllocRange
  permission : Option Permission
  deriving DecidableEq, Repr

/-- Rust `AccessOp`: the payload of a pending access operation. -/
structure AccessOp where
  kind : AccessKind
  tag : ProvenanceExtra
  range : AllocRange
  deriving DecidableEq, Repr

/-- Rust `DeallocOp`: the payload of a pending deallocation. -/
structure DeallocOp where
  tag : ProvenanceExtra
  deriving DecidableEq, Repr

/-- Rust `Operation`: the in-flight operation a diagnostic context describes. -/
inductive Operation where
  | Retag (op : RetagOp)
  | Access (op : AccessOp)
  | Dealloc (op : DeallocOp)
  deriving DecidableEq, Repr

/-- Rust `InvalidationCause` recorded with an invalidation event. -/
inductive InvalidationCause where
  | Access (kind : AccessKind)
  | Retag (perm : Permission) (cause : RetagCause)
  deriving DecidableEq, Repr

/-- A `Creation` record of the allocation history. -/
structure Creation where
  retag : RetagOp
  span : Span
  deriving DecidableEq, Repr

/-- An `Invalidation` record of the allocation history. -/
structure Invalidation where
  tag : SbTag
  range : AllocRange
  span : Span
  cause : InvalidationCause
  deriving DecidableEq, Repr

/-- A `Protection` record of the allocation history. -/
structure Protection where
  tag : SbTag
  span : Span
  deriving DecidableEq, Repr

/-- Rust `AllocHistory`: per-allocation log of base creation plus creation /
invalidation / protection events. -/
structure AllocHistory where
  id : Nat
  base : Item × Span
  creations : List Creation
  invalidations : List Invalidation
  protectors : List Protection
  deriving DecidableEq, Repr

/-- Rust `CurrentSpan`: the source's span handle exposes `get()` (the current
span) and `get_parent()` (the caller frame's span); both are modelled as
fields. -/
structure CurrentSpan where
  span : Span
  parent : Span
  deriving DecidableEq, Repr

/-- Modelled from the spec: the per-call-frame Stacked Borrows data that
`protector_error` reads off the thread manager (`frame.extra.stacked_borrows`
holds a set of protected tags and the owning call's identifier).  The
`Option` layer models that a frame may lack this data, which the source
unwraps with `expect`. -/
structure FrameSbExtra where
  protected_tags : List SbTag
  call_id : Nat
  deriving DecidableEq, Repr

/-- Modelled from the spec: `ThreadManager::all_stacks()` yields the call
stacks of all live threads; each frame may or may not carry Stacked Borrows
data. -/
abbrev ThreadManager := List (List (Option FrameSbExtra))

/-- Modelled from the spec: the part of `GlobalStateInner` the diagnostics
code reads — the debug watch-set `tracked_pointer_tags`. -/
structure GlobalStateInner where
  tracked_pointer_tags : List SbTag
  deriving DecidableEq, Repr

/-- Rust `DiagnosticCxBuilder`: a pending operation not yet bound to an
allocation's history. -/
structure DiagnosticCxBuilder where
  operation : Operation
  current_span : CurrentSpan
  threads : ThreadManager
  deriving DecidableEq, Repr

/-- Rust `DiagnosticCx`: a pending operation bound to one allocation's history and
a byte offset within it. -/
structure DiagnosticCx where
  operation : Operation
  current_span : CurrentSpan
  threads : ThreadManager
  history : AllocHistory
  offset : Nat
  deriving DecidableEq, Repr

/-- Rust `DiagnosticCxBuilder::build`: attach a history and an offset. -/
def DiagnosticCxBuilder.build (b : DiagnosticCxBuilder) (history : AllocHistory)
    (offset : Nat) : DiagnosticCx :=
  { operation := b.operation
    current_span := b.current_span
    threads := b.threads
    history := history
    offset := offset }

/-- Rust `DiagnosticCx::unbuild`: drop the history binding, recovering the
builder. -/
def DiagnosticCx.unbuild (cx : DiagnosticCx) : DiagnosticCxBuilder :=
  { operation := cx.operation
    current_span := cx.current_span
    threads := cx.threads }

/-- Rust `AllocHistory::new`. -/
def AllocHistory.new (id : Nat) (item : Item) (current_span : CurrentSpan) :
    AllocHistory :=
  { id := id
    base := (item, current_span.span)
    creations := []
    invalidations := []
    protectors := [] }

/-- Rust `DiagnosticCx::start_grant`.  Panics (`none`) unless the operation is a
retag with a nonempty creations log.  Sets the operation's permission, then:
if the most recent creation record has no permission yet, fill it in; if it
has the same permission, do nothing; otherwise "split" the record using
`alloc_range` — note the source passes `self.offset` and
`previous_range.end()` as the SIZE argument of `alloc_range`. -/
def DiagnosticCx.start_grant (cx : DiagnosticCx) (perm : Permission) :
    Option DiagnosticCx :=
  match cx.operation with
  | .Retag op =>
    let op' : RetagOp := { op with permission := some perm }
    match cx.history.creations.getLast? with
    | none => none
    | some last_creation =>
      let front := cx.history.creations.dropLast
      match last_creation.retag.permission with
      | none =>
        some { cx with
          operation := .Retag op'
          history := { cx.history with
            creations :=
              front ++ [{ last_creation with
                retag := { last_creation.retag with permission := some perm } }] } }
      | some previous =>
        if previous = perm then
          some { cx with operation := .Retag op' }
        else
          let previous_range := last_creation.retag.range
          let truncated : Creation := { last_creation with
            retag := { last_creation.retag with
              range := alloc_range previous_range.start cx.offset } }
          let new_event : Creation := { truncated with
            retag := { truncated.retag with
              range := alloc_range cx.offset previous_range.endOffset
              permission := some perm } }
          some { cx with
            operation := .Retag op'
            history := { cx.history with creations := front ++ [truncated, new_event] } }
  | _ => none

/-- Rust `DiagnosticCx::log_creation`: push a `Creation` record; panics unless the
operation is a retag. -/
def DiagnosticCx.log_creation (cx : DiagnosticCx) : Option DiagnosticCx :=
  match cx.operation with
  | .Retag op =>
    some { cx with
      history := { cx.history with
        creations := cx.history.creations ++ [{ retag := op, span := cx.current_span.span }] } }
  | _ => none

/-- Rust `DiagnosticCx::log_invalidation`: push an `Invalidation` record.  During
a retag the permission is `unwrap`ped (panic if unset) and an `FnEntry` retag
uses the parent span; panics on a dealloc operation. -/
def DiagnosticCx.log_invalidation (cx : DiagnosticCx) (tag : SbTag) :
    Option DiagnosticCx :=
  match cx.operation with
  | .Retag op =>
    match op.permission with
    | none => none
    | some perm =>
      let span := if op.cause = .FnEntry then cx.current_span.parent else cx.current_span.span
      some { cx with
        history := { cx.history with
          invalidations := cx.history.invalidations ++
            [{ tag := tag, range := op.range, span := span,
               cause := .Retag perm op.cause }] } }
  | .Access op =>
    some { cx with
      history := { cx.history with
        invalidations := cx.history.invalidations ++
          [{ tag := tag, range := op.range, span := cx.current_span.span,
             cause := .Access op.kind }] } }
  | .Dealloc _ => none

/-- Rust `DiagnosticCx::log_protector`: push a `Protection` record; panics unless
the operation is a retag. -/
def DiagnosticCx.log_protector (cx : DiagnosticCx) : Option DiagnosticCx :=
  match cx.operation with
  | .Retag op =>
    some { cx with
      history := { cx.history with
        protectors := cx.history.protectors ++
          [{ tag := op.new_tag, span := cx.current_span.span }] } }
  | _ => none

/-- The diagnostic message contents; each constructor models one of the
`format!` strings of the source (constructors are injective, as distinct
format strings are distinct). -/
inductive DiagMsg where
  | createdByRetag (tag : SbTag) (perm : Permission) (range : AllocRange)
  | zeroSizeCreated (tag : SbTag) (range : AllocRange)
  | baseTagCreated (tag : SbTag) (alloc_id : Nat)
  | invalidatedBy (tag : SbTag) (range : AllocRange) (cause : InvalidationCause)
  | protectedArg (tag : SbTag)
  deriving DecidableEq, Repr

/-- Rust `Creation::generate_diagnostic`.  When the record has no permission the
source `assert!`s that the range has size zero; `none` models that assertion
failing. -/
def Creation.generate_diagnostic (c : Creation) : Option (DiagMsg × Span) :=
  match c.retag.permission with
  | some perm => some (.createdByRetag c.retag.new_tag perm c.retag.range, c.span)
  | none =>
    if c.retag.range.size = 0 then
      some (.zeroSizeCreated c.retag.new_tag c.retag.range, c.span)
    else
      none

/-- Rust `Invalidation::generate_diagnostic` (total). -/
def Invalidation.generate_diagnostic (i : Invalidation) : DiagMsg × Span :=
  (.invalidatedBy i.tag i.range i.cause, i.span)

/-- Rust `TagHistory`: the (created, invalidated?, protected?) narrative triple. -/
structure TagHistory where
  created : DiagMsg × Span
  invalidated : Option (DiagMsg × Span)
  protected_ : Option (DiagMsg × Span)
  deriving DecidableEq, Repr

/-- The closure of the first `find_map` in `get_logs_relevant_to`: the tag
matches and the context's offset lies inside the record's range. -/
def creationMatchesAt (offset tag : Nat) (e : Creation) : Bool :=
  e.retag.new_tag == tag &&
    decide (e.retag.range.start ≤ offset) &&
    decide (offset < e.retag.range.start + e.retag.range.size)

/-- The closure of the second `find_map`: the tag matches, range ignored. -/
def creationMatches (tag : Nat) (e : Creation) : Bool :=
  e.retag.new_tag == tag

/-- Rust `DiagnosticCx::get_logs_relevant_to`.  The outer `Option` models a panic
(the `assert!` inside `Creation::generate_diagnostic`); the inner `Option` is
the source's return value. -/
def DiagnosticCx.get_logs_relevant_to (cx : DiagnosticCx) (tag : SbTag)
    (protector_tag : Option SbTag) : Option (Option TagHistory) :=
  let h := cx.history
  let createdStep : Option (Option (DiagMsg × Span)) :=
    match h.creations.reverse.find? (creationMatchesAt cx.offset tag) with
    | some e => e.generate_diagnostic.map some
    | none =>
      match h.creations.reverse.find? (creationMatches tag) with
      | some e => e.generate_diagnostic.map some
      | none =>
        if h.base.1.tag = tag then
          some (some (.baseTagCreated tag h.id, h.base.2))
        else
          some none
  match createdStep with
  | none => none
  | some none => some none
  | some (some created) =>
    let invalidated := (h.invalidations.reverse.find? (fun e => e.tag == tag)).map
      Invalidation.generate_diagnostic
    let prot := (protector_tag.bind (fun p => h.protectors.find? (fun pr => pr.tag == p))).map
      (fun pr => (DiagMsg.protectedArg pr.tag, pr.span))
    some (some { created := created, invalidated := invalidated, protected_ := prot })

/-- The three static suffix strings `error_cause` can return. -/
inductive ErrorCause where
  | onlySharedReadOnly
  | tagDoesNotExist
  | noExposedTags
  deriving DecidableEq, Repr

/-- Rust `error_cause(stack, prov_extra)`: for a concrete tag, scan the whole
stack for an item with that tag and a non-`Disabled` permission. -/
def error_cause (stack : Stack) (prov_extra : ProvenanceExtra) : ErrorCause :=
  match prov_extra with
  | .Concrete tag =>
    if stack.any (fun item => item.tag == tag && !(item.perm == .Disabled)) then
      .onlySharedReadOnly
    else
      .tagDoesNotExist
  | .Wildcard => .noExposedTags

/-- The one-line messages of the four error builders, as structured data. -/
inductive SbMessage where
  | grantMsg (orig_tag : ProvenanceExtra) (perm : Permission) (alloc_id : Nat)
      (offset : Nat) (cause : ErrorCause)
  | accessMsg (kind : AccessKind) (tag : ProvenanceExtra) (alloc_id : Nat)
      (offset : Nat) (cause : ErrorCause)
  | deallocProtectedMsg (item : Item) (call_id : Nat)
  | notGrantingMsg (tag : ProvenanceExtra) (item : Item) (call_id : Nat)
  deriving DecidableEq, Repr

/-- Rust `operation_summary(operation, alloc_id, range)` as structured data: the
operation description is either a retag cause summary or "an access". -/
inductive SummaryOp where
  | retagSummary (cause : RetagCause)
  | accessSummary
  deriving DecidableEq, Repr

/-- The structured-summary argument of `err_sb_ub`. -/
structure OpSummary where
  op : SummaryOp
  alloc_id : Nat
  range : AllocRange
  deriving DecidableEq, Repr

/-- Rust `err_sb_ub(msg, help, history)` as a structured error value. -/
structure SbError where
  msg : SbMessage
  summary : Option OpSummary
  history : Option TagHistory
  deriving DecidableEq, Repr

/-- Rust `ProvenanceExtra::and_then` composed with `get_logs_relevant_to`, with
panic propagation: `Wildcard` yields no history (and cannot panic). -/
def DiagnosticCx.logsFor (cx : DiagnosticCx) (pe : ProvenanceExtra)
    (protector_tag : Option SbTag) : Option (Option TagHistory) :=
  match pe with
  | .Wildcard => some none
  | .Concrete t => cx.get_logs_relevant_to t protector_tag

/-- Rust `DiagnosticCx::grant_error`: panics unless the operation is a retag;
builds the message, the operation summary, and the best-effort history
narrative. -/
def DiagnosticCx.grant_error (cx : DiagnosticCx) (perm : Permission)
    (stack : Stack) : Option SbError :=
  match cx.operation with
  | .Retag op =>
    (cx.logsFor op.orig_tag none).map (fun logs =>
      { msg := .grantMsg op.orig_tag perm cx.history.id cx.offset
          (error_cause stack op.orig_tag)
        summary := some { op := .retagSummary op.cause, alloc_id := cx.history.id,
                          range := op.range }
        history := logs })
  | _ => none

/-- Rust `DiagnosticCx::access_error`: panics unless the operation is an access. -/
def DiagnosticCx.access_error (cx : DiagnosticCx) (stack : Stack) :
    Option SbError :=
  match cx.operation with
  | .Access op =>
    (cx.logsFor op.tag none).map (fun logs =>
      { msg := .accessMsg op.kind op.tag cx.history.id cx.offset
          (error_cause stack op.tag)
        summary := some { op := .accessSummary, alloc_id := cx.history.id,
                          range := op.range }
        history := logs })
  | _ => none

/-- The frame scan of `protector_error`: walk the flattened call stacks; a
frame without Stacked Borrows data makes the `expect` panic (`none`); the
first frame whose protected-tag set contains the tag yields its call id; if
the scan ends without a match the source's `unwrap` panics (`none`). -/
def findProtectorCallId (tag : SbTag) : List (Option FrameSbExtra) → Option Nat
  | [] => none
  | none :: _ => none
  | some f :: rest =>
    if tag ∈ f.protected_tags then some f.call_id else findProtectorCallId tag rest

/-- Rust `DiagnosticCx::protector_error`.  The call id is resolved first (with its
two panic points), then the message and history narrative are built depending
on the operation kind. -/
def DiagnosticCx.protector_error (cx : DiagnosticCx) (item : Item) :
    Option SbError :=
  match findProtectorCallId item.tag cx.threads.flatten with
  | none => none
  | some call_id =>
    match cx.operation with
    | .Dealloc _ =>
      some { msg := .deallocProtectedMsg item call_id, summary := none, history := none }
    | .Retag op =>
      (cx.logsFor op.orig_tag (some item.tag)).map (fun logs =>
        { msg := .notGrantingMsg op.orig_tag item call_id, summary := none,
          history := logs })
    | .Access op =>
      (cx.logsFor op.tag (some item.tag)).map (fun logs =>
        { msg := .notGrantingMsg op.tag item call_id, summary := none,
          history := logs })

/-- The `PoppedPointerTag` non-halting diagnostic payload. -/
structure PoppedNotif where
  item : Item
  summary : Option (ProvenanceExtra × AccessKind)
  deriving DecidableEq, Repr

/-- Rust `DiagnosticCx::check_tracked_tag_popped`.  Returns `some none` when the
tag is not tracked (early return, nothing registered), `some (some n)` when
the notification `n` is registered, and `none` when the source panics (retag
with unset permission, or a `SharedReadWrite`/`Disabled` retag permission). -/
def DiagnosticCx.check_tracked_tag_popped (cx : DiagnosticCx) (item : Item)
    (global : GlobalStateInner) : Option (Option PoppedNotif) :=
  if ¬ (item.tag ∈ global.tracked_pointer_tags) then
    some none
  else
    match cx.operation with
    | .Dealloc _ => some (some { item := item, summary := none })
    | .Access op => some (some { item := item, summary := some (op.tag, op.kind) })
    | .Retag op =>
      match op.permission with
      | none => none
      | some .SharedReadOnly =>
        some (some { item := item, summary := some (op.orig_tag, .Read) })
      | some .Unique =>
        some (some { item := item, summary := some (op.orig_tag, .Write) })
      | some .SharedReadWrite => none
      | some .Disabled => none

/-- Rust `TlsEntry` from `src/shims/tls.rs`: per-key data map (thread id ↦ stored
scalar, both modelled as `Nat`) and an optional destructor instance
(modelled as an opaque `Nat` identifier). -/
structure TlsEntry where
  data : List (Nat × Nat)
  dtor : Option Nat
  deriving DecidableEq, Repr

/-- Rust `TlsData`: the next key counter (`u128` in the source) and the key
table (a `BTreeMap` in the source, modelled as an association list; the
claims only depend on the key set). -/
structure TlsData where
  next_key : Nat
  keys : List (Nat × TlsEntry)
  deriving DecidableEq, Repr

/-- Rust `Default for TlsData`: the counter starts at 1 ("we must not use 0 on
Windows"). -/
def TlsData.init : TlsData :=
  { next_key := 1, keys := [] }

/-- The error raised by `create_tls_key` when the key space is exhausted. -/
inductive TlsError where
  | ranOutOfTlsKeySpace
  deriving DecidableEq, Repr

/-- Rust `TlsData::create_tls_key`.  `maxSizeBits` is `max_size.bits()`.  The
outer `Option` models the `try_insert(..).unwrap()` panic (key already
present); the returned pair is the mutated state together with the `Ok` key
or the "we ran out of TLS key space" error.  Note the counter increment and
the insertion happen before the size check, so the state is mutated even on
the error path. -/
def TlsData.create_tls_key (d : TlsData) (dtor : Option Nat)
    (maxSizeBits : Nat) : Option (TlsData × Except TlsError Nat) :=
  let new_key := d.next_key
  if d.keys.any (fun kv => kv.1 == new_key) then
    none
  else
    let d2 : TlsData :=
      { next_key := d.next_key + 1
        keys := d.keys ++ [(new_key, { data := [], dtor := dtor })] }
    if maxSizeBits < 128 ∧ new_key ≥ 2 ^ maxSizeBits then
      some (d2, .error .ranOutOfTlsKeySpace)
    else
      some (d2, .ok new_key)

/-!  Spec-side selectors.  The spec phrases lookups as "the most recently
logged record such that …"; these selectors express that directly as the
last element of a filtered log, independently of the source's
reverse-iterator implementation. -/

/-- The most recent element of `l` satisfying `p`: last of the filtered list. -/
def mostRecent (p : α → Bool) (l : List α) : Option α :=
  (l.filter p).getLast?

/-- A creation record with no permission is only ever logged for zero-sized
retags (this is what the source's `assert!` in `generate_diagnostic`
checks). -/
def wfCreation (c : Creation) : Prop :=
  c.retag.permission = none → c.retag.range.size = 0

/-- Well-formed history: every creation record satisfies `wfCreation`. -/
def wfHistory (h : AllocHistory) : Prop :=
  ∀ c ∈ h.creations, wfCreation c


/-- Appending an element to the front of a list places it at the back of the
`getLast?` view: `(a :: l).getLast? = l.getLast?.or (some a)`. -/
theorem getLast?_cons_or (a : α) (l : List α) :
    (a :: l).getLast? = l.getLast?.or (some a) := by
  induction l generalizing a with
  | nil => simp
  | cons b bs ih =>
    rw [List.getLast?_cons_cons, ih b, Option.or_assoc]
    rfl

/-- Searching a reversed list front-to-back finds the most recent matching
element of the original list: `l.reverse.find? p = (l.filter p).getLast?`. -/
theorem find?_reverse_eq_mostRecent (p : α → Bool) (l : List α) :
    l.reverse.find? p = mostRecent p l := by
  induction l with
  | nil => rfl
  | cons a t ih =>
    simp only [mostRecent] at ih ⊢
    rw [List.reverse_cons, List.find?_append, ih, List.filter_cons]
    cases hpa : p a with
    | false => simp [List.find?_cons, hpa]
    | true => simp [List.find?_cons, hpa, getLast?_cons_or]

/-- A sample retag operation: tag 1 retagged from the base tag 0 over the
bytes `[2, 6)`. -/
def retagOpSample : RetagOp :=
  { cause := .Normal
    new_tag := 1
    orig_tag := .Concrete 0
    range := alloc_range 2 4
    permission := none }

/-- A sample retag context: one creation record already logged for tag 1 over
`[2, 6)` with permission `Unique`, at context offset 3. -/
def cxRetagSample : DiagnosticCx :=
  { operation := .Retag retagOpSample
    current_span := { span := 7, parent := 8 }
    threads := []
    history :=
      { id := 0
        base := ({ tag := 0, perm := .Unique, protected_ := false }, 0)
        creations := [{ retag := { retagOpSample with permission := some .Unique }
                        span := 5 }]
        invalidations := []
        protectors := [] }
    offset := 3 }

/-- C1: the claim states that a `start_grant` with a diverging permission
truncates the most recent creation record (previously covering
`[start, end) = [2, 6)`) to `[start, offset) = [2, 3)` and appends a record
covering exactly `[offset, end) = [3, 6)`.  The source instead passes
`self.offset` and `previous_range.end()` as the SIZE argument of rustc's
`alloc_range(start, size)`, producing ranges `{start 2, size 3}` (covering
`[2, 5)`) and `{start 3, size 6}` (covering `[3, 9)`), so the two records are
not the claimed split — the code contradicts its own "'Split up' the
creation event" comment. -/
theorem start_grant_alloc_range_misuse :
    (cxRetagSample.start_grant .SharedReadOnly).map
        (fun cx => cx.history.creations.map (fun e => e.retag.range)) =
      some [alloc_range 2 3, alloc_range 3 6] ∧
    (cxRetagSample.start_grant .SharedReadOnly).map
        (fun cx => cx.history.creations.map (fun e => e.retag.range)) ≠
      some [alloc_range 2 1, alloc_range 3 3] := by
  constructor <;> decide

/-- C8: `build` followed by `unbuild` restores the builder exactly (same
pending operation, span handle and thread-manager reference), and the pair
leaves the attached history and offset untouched. -/
theorem build_unbuild_roundtrip (b : DiagnosticCxBuilder) (h : AllocHistory)
    (o : Nat) :
    (b.build h o).unbuild = b ∧ (b.build h o).history = h ∧
      (b.build h o).offset = o :=
  ⟨rfl, rfl, rfl⟩

/-- C9: when the most recent creation record already carries the very
permission being granted, `start_grant` leaves the whole history unchanged,
and running it twice in a row with that permission equals running it once. -/
theorem start_grant_same_permission_id
    (cx : DiagnosticCx) (op : RetagOp) (last : Creation) (p : Permission)
    (hop : cx.operation = .Retag op)
    (hlast : cx.history.creations.getLast? = some last)
    (hperm : last.retag.permission = some p) :
    (∃ cx', cx.start_grant p = some cx' ∧ cx'.history = cx.history) ∧
    (cx.start_grant p).bind (fun c => c.start_grant p) = cx.start_grant p := by
  have h1 : cx.start_grant p =
      some { cx with operation := .Retag { op with permission := some p } } := by
    unfold DiagnosticCx.start_grant
    rw [hop]
    simp [hlast, hperm]
  refine ⟨⟨_, h1, rfl⟩, ?_⟩
  rw [h1]
  simp only [Option.some_bind]
  unfold DiagnosticCx.start_grant
  simp [hlast, hperm]

/-- Witness for C9: the sample context's only creation record carries
`Unique`, and `start_grant Unique` indeed fixes the history. -/
theorem start_grant_same_permission_id_witness :
    (∃ cx', cxRetagSample.start_grant .Unique = some cx' ∧
        cx'.history = cxRetagSample.history) ∧
    (cxRetagSample.start_grant .Unique).bind (fun c => c.start_grant .Unique) =
      cxRetagSample.start_grant .Unique :=
  start_grant_same_permission_id cxRetagSample retagOpSample
    { retag := { retagOpSample with permission := some .Unique }, span := 5 }
    .Unique rfl (by decide) rfl

/-- C5: each history-recording operation only appends records; the sole
record ever modified is the most recent creation record (by `start_grant`),
and the log lengths never decrease. -/
theorem history_recording_append_only (cx cx' : DiagnosticCx) :
    (cx.log_creation = some cx' →
      cx'.history.invalidations = cx.history.invalidations ∧
      cx'.history.protectors = cx.history.protectors ∧
      ∃ c, cx'.history.creations = cx.history.creations ++ [c]) ∧
    (∀ tag, cx.log_invalidation tag = some cx' →
      cx'.history.creations = cx.history.creations ∧
      cx'.history.protectors = cx.history.protectors ∧
      ∃ i, cx'.history.invalidations = cx.history.invalidations ++ [i]) ∧
    (cx.log_protector = some cx' →
      cx'.history.creations = cx.history.creations ∧
      cx'.history.invalidations = cx.history.invalidations ∧
      ∃ pr, cx'.history.protectors = cx.history.protectors ++ [pr]) ∧
    (∀ perm, cx.start_grant perm = some cx' →
      cx'.history.invalidations = cx.history.invalidations ∧
      cx'.history.protectors = cx.history.protectors ∧
      cx.history.creations.length ≤ cx'.history.creations.length ∧
      (cx'.history.creations = cx.history.creations ∨
        (∃ c, cx'.history.creations = cx.history.creations.dropLast ++ [c]) ∨
        (∃ c₁ c₂, cx'.history.creations = cx.history.creations.dropLast ++ [c₁, c₂]))) := by
  refine ⟨?_, ?_, ?_, ?_⟩
  · intro h
    unfold DiagnosticCx.log_creation at h
    cases hop : cx.operation
    case Retag op =>
      rw [hop] at h
      dsimp only at h
      obtain rfl := Option.some.inj h
      exact ⟨rfl, rfl, _, rfl⟩
    case Access op =>
      rw [hop] at h
      exact Option.noConfusion h
    case Dealloc op =>
      rw [hop] at h
      exact Option.noConfusion h
  · intro tag h
    unfold DiagnosticCx.log_invalidation at h
    cases hop : cx.operation
    case Retag op =>
      rw [hop] at h
      dsimp only at h
      cases hp : op.permission
      case none =>
        rw [hp] at h
        exact Option.noConfusion h
      case some perm =>
        rw [hp] at h
        dsimp only at h
        obtain rfl := Option.some.inj h
        exact ⟨rfl, rfl, _, rfl⟩
    case Access op =>
      rw [hop] at h
      dsimp only at h
      obtain rfl := Option.some.inj h
      exact ⟨rfl, rfl, _, rfl⟩
    case Dealloc op =>
      rw [hop] at h
      exact Option.noConfusion h
  · intro h
    unfold DiagnosticCx.log_protector at h
    cases hop : cx.operation
    case Retag op =>
      rw [hop] at h
      dsimp only at h
      obtain rfl := Option.some.inj h
      exact ⟨rfl, rfl, _, rfl⟩
    case Access op =>
      rw [hop] at h
      exact Option.noConfusion h
    case Dealloc op =>
      rw [hop] at h
      exact Option.noConfusion h
  · intro perm h
    unfold DiagnosticCx.start_grant at h
    cases hop : cx.operation
    case Access op =>
      rw [hop] at h
      exact Option.noConfusion h
    case Dealloc op =>
      rw [hop] at h
      exact Option.noConfusion h
    case Retag op =>
      rw [hop] at h
      dsimp only at h
      cases hlast : cx.history.creations.getLast?
      case none =>
        rw [hlast] at h
        exact Option.noConfusion h
      case some last =>
        rw [hlast] at h
        dsimp only at h
        have hne : cx.history.creations ≠ [] := by
          intro hnil
          rw [hnil] at hlast
          exact Option.noConfusion hlast
        have hlen : cx.history.creations.dropLast.length =
            cx.history.creations.length - 1 := List.length_dropLast _
        have hpos : 1 ≤ cx.history.creations.length := List.length_pos.mpr hne
        cases hp : last.retag.permission
        case none =>
          rw [hp] at h
          dsimp only at h
          obtain rfl := Option.some.inj h
          refine ⟨rfl, rfl, ?_, .inr (.inl ⟨_, rfl⟩)⟩
          simp only [List.length_append, hlen, List.length_cons, List.length_nil]
          omega
        case some prev =>
          rw [hp] at h
          dsimp only at h
          by_cases hpp : prev = perm
          · rw [if_pos hpp] at h
            obtain rfl := Option.some.inj h
            exact ⟨rfl, rfl, Nat.le_refl _, .inl rfl⟩
          · rw [if_neg hpp] at h
            obtain rfl := Option.some.inj h
            refine ⟨rfl, rfl, ?_, .inr (.inr ⟨_, _, rfl⟩)⟩
            simp only [List.length_append, hlen, List.length_cons, List.length_nil]
            omega

/-- The sample context after `log_creation`. -/
def cxW5a : DiagnosticCx :=
  { cxRetagSample with
    history := { cxRetagSample.history with
      creations := cxRetagSample.history.creations ++
        [{ retag := retagOpSample, span := 7 }] } }

/-- The sample context with the retag permission already set. -/
def cxRetagPerm : DiagnosticCx :=
  { cxRetagSample with
    operation := .Retag { retagOpSample with permission := some .Unique } }

/-- The context `cxRetagPerm` after `log_invalidation 0`. -/
def cxW5b : DiagnosticCx :=
  { cxRetagPerm with
    history := { cxRetagPerm.history with
      invalidations := [{ tag := 0
                          range := alloc_range 2 4
                          span := 7
                          cause := .Retag .Unique .Normal }] } }

/-- The sample context after `log_protector`. -/
def cxW5c : DiagnosticCx :=
  { cxRetagSample with
    history := { cxRetagSample.history with
      protectors := [{ tag := 1, span := 7 }] } }

/-- The sample context after `start_grant SharedReadOnly` (the splitting
branch). -/
def cxW5d : DiagnosticCx :=
  { cxRetagSample with
    operation := .Retag { retagOpSample with permission := some .SharedReadOnly }
    history := { cxRetagSample.history with
      creations :=
        [{ retag := { retagOpSample with
             permission := some .Unique
             range := alloc_range 2 3 }
           span := 5 },
         { retag := { retagOpSample with
             permission := some .SharedReadOnly
             range := alloc_range 3 6 }
           span := 5 }] } }

/-- Witness for C5: concrete runs of all four recording operations. -/
theorem history_recording_append_only_witness :
    (cxRetagSample.log_creation = some cxW5a ∧
      (cxW5a.history.invalidations = cxRetagSample.history.invalidations ∧
        cxW5a.history.protectors = cxRetagSample.history.protectors ∧
        ∃ c, cxW5a.history.creations = cxRetagSample.history.creations ++ [c])) ∧
    (cxRetagPerm.log_invalidation 0 = some cxW5b ∧
      (cxW5b.history.creations = cxRetagPerm.history.creations ∧
        cxW5b.history.protectors = cxRetagPerm.history.protectors ∧
        ∃ i, cxW5b.history.invalidations = cxRetagPerm.history.invalidations ++ [i])) ∧
    (cxRetagSample.log_protector = some cxW5c ∧
      (cxW5c.history.creations = cxRetagSample.history.creations ∧
        cxW5c.history.invalidations = cxRetagSample.history.invalidations ∧
        ∃ pr, cxW5c.history.protectors = cxRetagSample.history.protectors ++ [pr])) ∧
    (cxRetagSample.start_grant .SharedReadOnly = some cxW5d ∧
      (cxW5d.history.invalidations = cxRetagSample.history.invalidations ∧
        cxW5d.history.protectors = cxRetagSample.history.protectors ∧
        cxRetagSample.history.creations.length ≤ cxW5d.history.creations.length ∧
        (cxW5d.history.creations = cxRetagSample.history.creations ∨
          (∃ c, cxW5d.history.creations =
            cxRetagSample.history.creations.dropLast ++ [c]) ∨
          (∃ c₁ c₂, cxW5d.history.creations =
            cxRetagSample.history.creations.dropLast ++ [c₁, c₂])))) :=
  ⟨⟨by decide, (history_recording_append_only cxRetagSample cxW5a).1 (by decide)⟩,
   ⟨by decide, (history_recording_append_only cxRetagPerm cxW5b).2.1 0 (by decide)⟩,
   ⟨by decide, (history_recording_append_only cxRetagSample cxW5c).2.2.1 (by decide)⟩,
   ⟨by decide,
    (history_recording_append_only cxRetagSample cxW5d).2.2.2 .SharedReadOnly (by decide)⟩⟩

/-- C6: `check_tracked_tag_popped` registers a `PoppedPointerTag`
notification for the popped item exactly when its tag is in the global
`tracked_pointer_tags` watch-set, and never returns an error — provided the
operation obeys the call contract (an access, a dealloc, or a retag whose
`start_grant` permission is `SharedReadOnly` or `Unique`). -/
theorem check_tracked_tag_popped_iff_tracked
    (cx : DiagnosticCx) (item : Item) (global : GlobalStateInner)
    (hvalid : (∃ op, cx.operation = .Access op) ∨ (∃ op, cx.operation = .Dealloc op) ∨
      (∃ op, cx.operation = .Retag op ∧
        (op.permission = some .SharedReadOnly ∨ op.permission = some .Unique))) :
    ∃ r, cx.check_tracked_tag_popped item global = some r ∧
      (r.isSome ↔ item.tag ∈ global.tracked_pointer_tags) ∧
      (∀ n, r = some n → n.item = item) := by
  unfold DiagnosticCx.check_tracked_tag_popped
  by_cases htr : item.tag ∈ global.tracked_pointer_tags
  · rw [if_neg (not_not_intro htr)]
    rcases hvalid with ⟨op, hop⟩ | ⟨op, hop⟩ | ⟨op, hop, hperm⟩
    · rw [hop]
      dsimp only
      refine ⟨_, rfl, by simp [htr], ?_⟩
      intro n hn
      obtain rfl := Option.some.inj hn
      rfl
    · rw [hop]
      dsimp only
      refine ⟨_, rfl, by simp [htr], ?_⟩
      intro n hn
      obtain rfl := Option.some.inj hn
      rfl
    · rcases hperm with hp | hp <;>
        · rw [hop]
          dsimp only
          rw [hp]
          dsimp only
          refine ⟨_, rfl, by simp [htr], ?_⟩
          intro n hn
          obtain rfl := Option.some.inj hn
          rfl
  · rw [if_pos htr]
    refine ⟨none, rfl, by simp [htr], ?_⟩
    intro n hn
    exact Option.noConfusion hn

/-- C7: a denied access through `Wildcard` provenance reports that no exposed
tags have suitable permission, while a denied access through a concrete tag
reports either that the tag does not exist in the borrow stack or that it
only grants `SharedReadOnly` permission. -/
theorem access_error_cause_by_provenance
    (cx : DiagnosticCx) (stack : Stack) (op : AccessOp) (err : SbError)
    (hop : cx.operation = .Access op)
    (herr : cx.access_error stack = some err) :
    (op.tag = .Wildcard →
      err.msg = .accessMsg op.kind .Wildcard cx.history.id cx.offset .noExposedTags) ∧
    (∀ t, op.tag = .Concrete t →
      err.msg = .accessMsg op.kind (.Concrete t) cx.history.id cx.offset .tagDoesNotExist ∨
      err.msg = .accessMsg op.kind (.Concrete t) cx.history.id cx.offset .onlySharedReadOnly) := by
  unfold DiagnosticCx.access_error at herr
  rw [hop] at herr
  dsimp only at herr
  constructor
  · intro hw
    rw [hw] at herr
    unfold DiagnosticCx.logsFor at herr
    dsimp only [Option.map] at herr
    obtain rfl := Option.some.inj herr
    simp [error_cause]
  · intro t ht
    rw [ht] at herr
    unfold DiagnosticCx.logsFor at herr
    dsimp only at herr
    cases hg : cx.get_logs_relevant_to t none
    case none =>
      rw [hg] at herr
      exact Option.noConfusion herr
    case some logs =>
      rw [hg] at herr
      dsimp only [Option.map] at herr
      obtain rfl := Option.some.inj herr
      unfold error_cause
      dsimp only
      by_cases hany : stack.any (fun it => it.tag == t && !(it.perm == .Disabled)) = true
      · rw [if_pos hany]
        exact .inr rfl
      · rw [if_neg hany]
        exact .inl rfl

/-- C10: `create_tls_key` allocates from a strictly increasing counter
starting at 1 (so key 0 is never returned and successive keys never repeat),
raises the key-space error exactly when the new key needs at least
`max_size.bits()` bits (for `bits < 128`), and has already inserted the key
and bumped the counter when that error is raised. -/
theorem create_tls_key_behavior :
    TlsData.init.next_key = 1 ∧
    (∀ (d : TlsData) (dtor : Option Nat) (m : Nat) (d' : TlsData)
        (r : Except TlsError Nat),
      d.create_tls_key dtor m = some (d', r) →
        d'.next_key = d.next_key + 1 ∧
        (∀ k, r = .ok k → k = d.next_key) ∧
        (∃ e, d'.keys = d.keys ++ [(d.next_key, e)]) ∧
        (r = .error .ranOutOfTlsKeySpace ↔ m < 128 ∧ 2 ^ m ≤ d.next_key) ∧
        (1 ≤ d.next_key → ∀ k, r = .ok k → k ≠ 0)) ∧
    (∀ (d : TlsData) (dtor : Option Nat) (m : Nat) (d' : TlsData) (k : Nat)
        (dtor' : Option Nat) (m' : Nat) (d'' : TlsData) (k' : Nat),
      d.create_tls_key dtor m = some (d', .ok k) →
      d'.create_tls_key dtor' m' = some (d'', .ok k') → k < k') := by
  have main : ∀ (d : TlsData) (dtor : Option Nat) (m : Nat) (d' : TlsData)
      (r : Except TlsError Nat),
      d.create_tls_key dtor m = some (d', r) →
        d'.next_key = d.next_key + 1 ∧
        (∀ k, r = .ok k → k = d.next_key) ∧
        (∃ e, d'.keys = d.keys ++ [(d.next_key, e)]) ∧
        (r = .error .ranOutOfTlsKeySpace ↔ m < 128 ∧ 2 ^ m ≤ d.next_key) ∧
        (1 ≤ d.next_key → ∀ k, r = .ok k → k ≠ 0) := by
    intro d dtor m d' r h
    unfold TlsData.create_tls_key at h
    dsimp only at h
    by_cases hg : d.keys.any (fun kv => kv.1 == d.next_key) = true
    · rw [if_pos hg] at h
      exact Option.noConfusion h
    · rw [if_neg hg] at h
      by_cases hm : m < 128 ∧ 2 ^ m ≤ d.next_key
      · rw [if_pos hm] at h
        simp only [Option.some.injEq, Prod.mk.injEq] at h
        obtain ⟨hh1, hh2⟩ := h
        subst hh1
        subst hh2
        refine ⟨rfl, ?_, ⟨_, rfl⟩, ?_, ?_⟩
        · intro k hk
          exact Except.noConfusion hk
        · exact ⟨fun _ => hm, fun _ => rfl⟩
        · intro _ k hk
          exact Except.noConfusion hk
      · rw [if_neg hm] at h
        simp only [Option.some.injEq, Prod.mk.injEq] at h
        obtain ⟨hh1, hh2⟩ := h
        subst hh1
        subst hh2
        refine ⟨rfl, ?_, ⟨_, rfl⟩, ?_, ?_⟩
        · intro k hk
          exact (Except.ok.inj hk).symm
        · constructor
          · intro hk
            exact Except.noConfusion hk
          · intro hc
            exact absurd hc hm
        · intro hd k hk
          obtain rfl := Except.ok.inj hk
          omega
  refine ⟨rfl, main, ?_⟩
  intro d dtor m d' k dtor' m' d'' k' h1 h2
  obtain ⟨hn1, hk1, -, -, -⟩ := main d dtor m d' (.ok k) h1
  obtain ⟨-, hk2, -, -, -⟩ := main d' dtor' m' d'' (.ok k') h2
  have e1 := hk1 k rfl
  have e2 := hk2 k' rfl
  omega

/-- A sample access context: a wildcard write over byte `[0, 1)` of the same
allocation history as `cxRetagSample`. -/
def cxAccessSample : DiagnosticCx :=
  { operation := .Access { kind := .Write, tag := .Wildcard, range := alloc_range 0 1 }
    current_span := { span := 7, parent := 8 }
    threads := []
    history := cxRetagSample.history
    offset := 0 }

/-- Witness for C6: popping the watched base item during the sample wildcard
access registers a notification. -/
theorem check_tracked_tag_popped_iff_tracked_witness :
    ∃ r, cxAccessSample.check_tracked_tag_popped
        { tag := 0, perm := .Unique, protected_ := false }
        { tracked_pointer_tags := [0] } = some r ∧
      (r.isSome ↔
        ({ tag := 0, perm := .Unique, protected_ := false } : Item).tag ∈
          ({ tracked_pointer_tags := [0] } : GlobalStateInner).tracked_pointer_tags) ∧
      (∀ n, r = some n →
        n.item = { tag := 0, perm := .Unique, protected_ := false }) :=
  check_tracked_tag_popped_iff_tracked cxAccessSample
    { tag := 0, perm := .Unique, protected_ := false }
    { tracked_pointer_tags := [0] } (.inl ⟨_, rfl⟩)

/-- The error report produced by `access_error` on the sample wildcard
access with an empty borrow stack. -/
def errW7 : SbError :=
  { msg := .accessMsg .Write .Wildcard 0 0 .noExposedTags
    summary := some { op := .accessSummary, alloc_id := 0, range := alloc_range 0 1 }
    history := none }

/-- Witness for C7: the sample wildcard access produces the no-exposed-tags
report. -/
theorem access_error_cause_by_provenance_witness :
    ((ProvenanceExtra.Wildcard : ProvenanceExtra) = .Wildcard →
      errW7.msg = .accessMsg .Write .Wildcard cxAccessSample.history.id
        cxAccessSample.offset .noExposedTags) ∧
    (∀ t, (ProvenanceExtra.Wildcard : ProvenanceExtra) = .Concrete t →
      errW7.msg = .accessMsg .Write (.Concrete t) cxAccessSample.history.id
        cxAccessSample.offset .tagDoesNotExist ∨
      errW7.msg = .accessMsg .Write (.Concrete t) cxAccessSample.history.id
        cxAccessSample.offset .onlySharedReadOnly) :=
  access_error_cause_by_provenance cxAccessSample []
    { kind := .Write, tag := .Wildcard, range := alloc_range 0 1 } errW7 rfl
    (by decide)

/-- The TLS state after one allocation from the initial state. -/
def tlsAfter1 : TlsData :=
  { next_key := 2, keys := [(1, { data := [], dtor := none })] }

/-- The TLS state after two allocations from the initial state. -/
def tlsAfter2 : TlsData :=
  { next_key := 3
    keys := [(1, { data := [], dtor := none }), (2, { data := [], dtor := none })] }

/-- Witness for C10: two concrete allocations from the initial state. -/
theorem create_tls_key_behavior_witness :
    (TlsData.init.create_tls_key none 8 = some (tlsAfter1, .ok 1)) ∧
    (tlsAfter1.next_key = TlsData.init.next_key + 1 ∧
      (∀ k, (Except.ok 1 : Except TlsError Nat) = .ok k → k = TlsData.init.next_key) ∧
      (∃ e, tlsAfter1.keys = TlsData.init.keys ++ [(TlsData.init.next_key, e)]) ∧
      ((Except.ok 1 : Except TlsError Nat) = .error .ranOutOfTlsKeySpace ↔
        8 < 128 ∧ 2 ^ 8 ≤ TlsData.init.next_key) ∧
      (1 ≤ TlsData.init.next_key → ∀ k,
        (Except.ok 1 : Except TlsError Nat) = .ok k → k ≠ 0)) ∧
    (1 : Nat) < 2 :=
  ⟨rfl,
   create_tls_key_behavior.2.1 TlsData.init none 8 tlsAfter1 (.ok 1) rfl,
   create_tls_key_behavior.2.2 TlsData.init none 8 tlsAfter1 1 none 8 tlsAfter2 2
     rfl rfl⟩

/-- When no creation record mentions tag `t` and `t` is not the base tag,
`get_logs_relevant_to` returns `some none`: no narrative, but no panic. -/
theorem get_logs_none_of_no_creation (cx : DiagnosticCx) (t : SbTag)
    (pt : Option SbTag)
    (hc : ∀ e ∈ cx.history.creations, e.retag.new_tag ≠ t)
    (hb : cx.history.base.1.tag ≠ t) :
    cx.get_logs_relevant_to t pt = some none := by
  have h1 : cx.history.creations.reverse.find? (creationMatchesAt cx.offset t) = none := by
    rw [List.find?_eq_none]
    intro e he
    have hne := hc e (List.mem_reverse.mp he)
    simp only [creationMatchesAt, Bool.and_eq_true, beq_iff_eq, decide_eq_true_eq]
    rintro ⟨⟨h', -⟩, -⟩
    exact hne h'
  have h2 : cx.history.creations.reverse.find? (creationMatches t) = none := by
    rw [List.find?_eq_none]
    intro e he
    have hne := hc e (List.mem_reverse.mp he)
    simp only [creationMatches, beq_iff_eq]
    exact hne
  unfold DiagnosticCx.get_logs_relevant_to
  dsimp only
  rw [h1, h2]
  simp [hb]

/-- The hypothesis of C4: the provenance is wildcard, or a concrete tag with
no creation record that is also not the base tag. -/
def noCreationNarrative (pe : ProvenanceExtra) (h : AllocHistory) : Prop :=
  pe = .Wildcard ∨
    ∃ t, pe = .Concrete t ∧ (∀ e ∈ h.creations, e.retag.new_tag ≠ t) ∧
      h.base.1.tag ≠ t

/-- C4: `grant_error` and `access_error` still return a complete report with
an absent (`none`) history narrative when the provenance is wildcard or the
tag has no creation record and is not the base tag; construction neither
fails nor panics. -/
theorem error_reports_degrade_gracefully (cx : DiagnosticCx) (stack : Stack)
    (perm : Permission) :
    (∀ op, cx.operation = .Retag op → noCreationNarrative op.orig_tag cx.history →
      (cx.grant_error perm stack).map (fun e => e.history) = some none) ∧
    (∀ op, cx.operation = .Access op → noCreationNarrative op.tag cx.history →
      (cx.access_error stack).map (fun e => e.history) = some none) := by
  constructor
  · intro op hop hnc
    unfold DiagnosticCx.grant_error
    rw [hop]
    dsimp only
    rcases hnc with hw | ⟨t, ht, hc, hb⟩
    · rw [hw]
      unfold DiagnosticCx.logsFor
      rfl
    · rw [ht]
      unfold DiagnosticCx.logsFor
      dsimp only
      rw [get_logs_none_of_no_creation cx t none hc hb]
      rfl
  · intro op hop hnc
    unfold DiagnosticCx.access_error
    rw [hop]
    dsimp only
    rcases hnc with hw | ⟨t, ht, hc, hb⟩
    · rw [hw]
      unfold DiagnosticCx.logsFor
      rfl
    · rw [ht]
      unfold DiagnosticCx.logsFor
      dsimp only
      rw [get_logs_none_of_no_creation cx t none hc hb]
      rfl

/-- The sample retag context rebased on wildcard provenance. -/
def cxRetagWild : DiagnosticCx :=
  { cxRetagSample with
    operation := .Retag { retagOpSample with orig_tag := .Wildcard } }

/-- Witness for C4: wildcard retag and wildcard access reports both carry an
absent history narrative. -/
theorem error_reports_degrade_gracefully_witness :
    (cxRetagWild.operation = .Retag { retagOpSample with orig_tag := .Wildcard } ∧
      noCreationNarrative ({ retagOpSample with orig_tag := .Wildcard } : RetagOp).orig_tag
        cxRetagWild.history ∧
      (cxRetagWild.grant_error .Unique []).map (fun e => e.history) = some none) ∧
    (cxAccessSample.operation =
        .Access { kind := .Write, tag := .Wildcard, range := alloc_range 0 1 } ∧
      noCreationNarrative
        ({ kind := .Write, tag := .Wildcard, range := alloc_range 0 1 } : AccessOp).tag
        cxAccessSample.history ∧
      (cxAccessSample.access_error []).map (fun e => e.history) = some none) :=
  ⟨⟨rfl, .inl rfl,
    (error_reports_degrade_gracefully cxRetagWild [] .Unique).1 _ rfl (.inl rfl)⟩,
   ⟨rfl, .inl rfl,
    (error_reports_degrade_gracefully cxAccessSample [] .Unique).2 _ rfl (.inl rfl)⟩⟩

/-- C3: `get_logs_relevant_to` resolves the created narrative in order —
(a) the most recently logged creation for the tag whose range contains the
offset, (b) failing that the most recently logged creation for the tag
regardless of range, (c) failing that a base-tag narrative when the tag is
the allocation's base tag — and returns `none` when none apply.  In every
found case the invalidated field is the most recently logged invalidation
for the tag and the protected field is the protection event matching the
supplied protector tag (each `none` when absent). -/
theorem get_logs_relevant_to_resolution
    (cx : DiagnosticCx) (tag : SbTag) (pt : Option SbTag) (r : Option TagHistory)
    (hr : cx.get_logs_relevant_to tag pt = some r) :
    (∀ e, mostRecent (creationMatchesAt cx.offset tag) cx.history.creations = some e →
      ∃ d, e.generate_diagnostic = some d ∧
        r = some { created := d
                   invalidated :=
                     (mostRecent (fun i => i.tag == tag) cx.history.invalidations).map
                       Invalidation.generate_diagnostic
                   protected_ :=
                     (pt.bind fun p =>
                         cx.history.protectors.find? fun pr => pr.tag == p).map
                       fun pr => (DiagMsg.protectedArg pr.tag, pr.span) }) ∧
    (mostRecent (creationMatchesAt cx.offset tag) cx.history.creations = none →
      ∀ e, mostRecent (creationMatches tag) cx.history.creations = some e →
        ∃ d, e.generate_diagnostic = some d ∧
          r = some { created := d
                     invalidated :=
                       (mostRecent (fun i => i.tag == tag) cx.history.invalidations).map
                         Invalidation.generate_diagnostic
                     protected_ :=
                       (pt.bind fun p =>
                           cx.history.protectors.find? fun pr => pr.tag == p).map
                         fun pr => (DiagMsg.protectedArg pr.tag, pr.span) }) ∧
    (mostRecent (creationMatchesAt cx.offset tag) cx.history.creations = none →
      mostRecent (creationMatches tag) cx.history.creations = none →
      cx.history.base.1.tag = tag →
      r = some { created := (.baseTagCreated tag cx.history.id, cx.history.base.2)
                 invalidated :=
                   (mostRecent (fun i => i.tag == tag) cx.history.invalidations).map
                     Invalidation.generate_diagnostic
                 protected_ :=
                   (pt.bind fun p =>
                       cx.history.protectors.find? fun pr => pr.tag == p).map
                     fun pr => (DiagMsg.protectedArg pr.tag, pr.span) }) ∧
    (mostRecent (creationMatchesAt cx.offset tag) cx.history.creations = none →
      mostRecent (creationMatches tag) cx.history.creations = none →
      cx.history.base.1.tag ≠ tag →
      r = none) := by
  unfold DiagnosticCx.get_logs_relevant_to at hr
  dsimp only at hr
  rw [find?_reverse_eq_mostRecent, find?_reverse_eq_mostRecent,
    find?_reverse_eq_mostRecent] at hr
  refine ⟨?_, ?_, ?_, ?_⟩
  · intro e he
    rw [he] at hr
    dsimp only at hr
    cases hd : e.generate_diagnostic
    case none =>
      rw [hd] at hr
      dsimp only [Option.map] at hr
      exact Option.noConfusion hr
    case some d =>
      rw [hd] at hr
      dsimp only [Option.map] at hr
      obtain rfl := Option.some.inj hr
      exact ⟨d, rfl, rfl⟩
  · intro hn e he
    rw [hn] at hr
    dsimp only at hr
    rw [he] at hr
    dsimp only at hr
    cases hd : e.generate_diagnostic
    case none =>
      rw [hd] at hr
      dsimp only [Option.map] at hr
      exact Option.noConfusion hr
    case some d =>
      rw [hd] at hr
      dsimp only [Option.map] at hr
      obtain rfl := Option.some.inj hr
      exact ⟨d, rfl, rfl⟩
  · intro hn1 hn2 hbase
    rw [hn1] at hr
    dsimp only at hr
    rw [hn2] at hr
    dsimp only at hr
    rw [if_pos hbase] at hr
    dsimp only at hr
    obtain rfl := Option.some.inj hr
    rfl
  · intro hn1 hn2 hbase
    rw [hn1] at hr
    dsimp only at hr
    rw [hn2] at hr
    dsimp only at hr
    rw [if_neg hbase] at hr
    dsimp only at hr
    exact (Option.some.inj hr).symm

/-- The creation record of the sample history. -/
def crW3 : Creation :=
  { retag := { retagOpSample with permission := some .Unique }, span := 5 }

/-- The narrative triple resolved for tag 1 in the sample context. -/
def thW3 : TagHistory :=
  { created := (.createdByRetag 1 .Unique (alloc_range 2 4), 5)
    invalidated := none
    protected_ := none }

/-- Witness for C3: in the sample context, tag 1 resolves through case (a) —
the range-matching creation record. -/
theorem get_logs_relevant_to_resolution_witness :
    (cxRetagSample.get_logs_relevant_to 1 none = some (some thW3)) ∧
    (mostRecent (creationMatchesAt cxRetagSample.offset 1)
        cxRetagSample.history.creations = some crW3) ∧
    (∃ d, crW3.generate_diagnostic = some d ∧
      (some thW3 : Option TagHistory) =
        some { created := d
               invalidated :=
                 (mostRecent (fun i => i.tag == 1)
                     cxRetagSample.history.invalidations).map
                   Invalidation.generate_diagnostic
               protected_ :=
                 ((none : Option SbTag).bind fun p =>
                     cxRetagSample.history.protectors.find? fun pr => pr.tag == p).map
                   fun pr => (DiagMsg.protectedArg pr.tag, pr.span) }) :=
  ⟨by decide, by decide,
   (get_logs_relevant_to_resolution cxRetagSample 1 none (some thW3)
       (by decide)).1 crW3 (by decide)⟩

/-- On a well-formed history, `get_logs_relevant_to` never panics. -/
theorem get_logs_isSome_of_wf (cx : DiagnosticCx) (t : SbTag) (pt : Option SbTag)
    (hwf : wfHistory cx.history) :
    ∃ r, cx.get_logs_relevant_to t pt = some r := by
  have hgen : ∀ e, e ∈ cx.history.creations → ∃ d, e.generate_diagnostic = some d := by
    intro e he
    have hwfe := hwf e he
    unfold Creation.generate_diagnostic
    cases hp : e.retag.permission
    case some perm => exact ⟨_, rfl⟩
    case none =>
      rw [if_pos (hwfe hp)]
      exact ⟨_, rfl⟩
  unfold DiagnosticCx.get_logs_relevant_to
  dsimp only
  cases h1 : cx.history.creations.reverse.find? (creationMatchesAt cx.offset t)
  case some e =>
    obtain ⟨d, hd⟩ :=
      hgen e (List.mem_reverse.mp (List.mem_of_find?_eq_some h1))
    dsimp only
    rw [hd]
    exact ⟨_, rfl⟩
  case none =>
    dsimp only
    cases h2 : cx.history.creations.reverse.find? (creationMatches t)
    case some e =>
      obtain ⟨d, hd⟩ :=
        hgen e (List.mem_reverse.mp (List.mem_of_find?_eq_some h2))
      dsimp only
      rw [hd]
      exact ⟨_, rfl⟩
    case none =>
      dsimp only
      by_cases hb : cx.history.base.1.tag = t
      · rw [if_pos hb]
        exact ⟨_, rfl⟩
      · rw [if_neg hb]
        exact ⟨_, rfl⟩

/-- When every frame carries Stacked Borrows data, the frame scan of
`protector_error` returns the call id of the first frame whose protected-tag
set contains the tag, and the panic marker when no frame does. -/
theorem findProtectorCallId_map_some (tag : SbTag) (frames : List FrameSbExtra) :
    findProtectorCallId tag (frames.map some) =
      (frames.find? (fun f => decide (tag ∈ f.protected_tags))).map
        (fun f => f.call_id) := by
  induction frames with
  | nil => rfl
  | cons f rest ih =>
    simp only [List.map_cons, findProtectorCallId]
    by_cases hmem : tag ∈ f.protected_tags
    · rw [if_pos hmem, List.find?_cons_of_pos _ (by simpa using hmem)]
      rfl
    · rw [if_neg hmem, List.find?_cons_of_neg _ (by simpa using hmem), ih]

/-- Whether an error message mentions the given call identifier. -/
def SbMessage.namesCall : SbMessage → Nat → Prop
  | .deallocProtectedMsg _ c, id => c = id
  | .notGrantingMsg _ _ c, id => c = id
  | _, _ => False

/-- C2 (amended): `protector_error` reports the call identifier of the first
live frame whose protected-tag set contains the protected item's tag; but
when no such frame exists it panics on `unwrap` (the source's own FIXME
questions this) instead of using a defined fallback. -/
theorem protector_error_first_frame_call_id
    (cx : DiagnosticCx) (item : Item) (frames : List FrameSbExtra)
    (hframes : cx.threads.flatten = frames.map some)
    (hwf : wfHistory cx.history) :
    (∀ fr, frames.find? (fun f => decide (item.tag ∈ f.protected_tags)) = some fr →
      ∃ err, cx.protector_error item = some err ∧ err.msg.namesCall fr.call_id) ∧
    (frames.find? (fun f => decide (item.tag ∈ f.protected_tags)) = none →
      cx.protector_error item = none) := by
  constructor
  · intro fr hfr
    unfold DiagnosticCx.protector_error
    rw [hframes, findProtectorCallId_map_some, hfr]
    dsimp only [Option.map]
    unfold DiagnosticCx.logsFor
    cases hop : cx.operation
    case Dealloc op =>
      dsimp only
      exact ⟨_, rfl, rfl⟩
    case Retag op =>
      dsimp only
      cases pe : op.orig_tag
      case Wildcard =>
        dsimp only
        exact ⟨_, rfl, rfl⟩
      case Concrete t =>
        dsimp only
        obtain ⟨r, hrr⟩ := get_logs_isSome_of_wf cx t (some item.tag) hwf
        rw [hrr]
        dsimp only
        exact ⟨_, rfl, rfl⟩
    case Access op =>
      dsimp only
      cases pe : op.tag
      case Wildcard =>
        dsimp only
        exact ⟨_, rfl, rfl⟩
      case Concrete t =>
        dsimp only
        obtain ⟨r, hrr⟩ := get_logs_isSome_of_wf cx t (some item.tag) hwf
        rw [hrr]
        dsimp only
        exact ⟨_, rfl, rfl⟩
  · intro hnone
    unfold DiagnosticCx.protector_error
    rw [hframes, findProtectorCallId_map_some, hnone]
    rfl

/-- Counterexample for C2 as stated: in a context with no live call frames at
all (so certainly no frame whose protected-tag set contains the item's tag),
`protector_error` hits the source's `.unwrap()` on `None` and panics — the
claimed defined fallback does not exist.  `none` is this embedding's panic
marker, not a report. -/
theorem protector_error_panics_without_protecting_frame :
    cxAccessSample.protector_error
      { tag := 0, perm := .Unique, protected_ := false } = none := by
  decide

/-- A call frame protecting tag 5 on behalf of call 9. -/
def frameW2 : FrameSbExtra := { protected_tags := [5], call_id := 9 }

/-- A deallocation context running with one live protected frame. -/
def cxDeallocProt : DiagnosticCx :=
  { operation := .Dealloc { tag := .Concrete 0 }
    current_span := { span := 7, parent := 8 }
    threads := [[some frameW2]]
    history := cxRetagSample.history
    offset := 0 }

/-- Witness for C2 (amended): deallocating while frame 9 protects tag 5
produces a report naming call 9. -/
theorem protector_error_first_frame_call_id_witness :
    (cxDeallocProt.threads.flatten = [frameW2].map some) ∧
    ([frameW2].find? (fun f =>
        decide (({ tag := 5, perm := .Unique, protected_ := true } : Item).tag ∈
          f.protected_tags)) = some frameW2) ∧
    (∃ err, cxDeallocProt.protector_error
        { tag := 5, perm := .Unique, protected_ := true } = some err ∧
      err.msg.namesCall frameW2.call_id) :=
  ⟨rfl, by decide,
   (protector_error_first_frame_call_id cxDeallocProt
       { tag := 5, perm := .Unique, protected_ := true } [frameW2] rfl
       (by
         intro c hc
         have hcc : c = { retag := { retagOpSample with permission := some .Unique }
                          span := 5 } := by
           simpa [cxDeallocProt, cxRetagSample] using hc
         subst hcc
         intro hp
         exact Option.noConfusion hp)).1 frameW2 (by decide)⟩
